import Mathlib

/-!
Verification of the InsightPaper brush-annotation engine and page pipeline.

Shallow embedding of src/modules/edit_tools.py (BrushStroke, BrushManager,
PdfBrushHandler) and src/modules/pdf_viewer.py (rotation state, render
scheduler).  Numeric values hold Python ints and floats; the embedding uses
the rationals for both, since none of the verified properties depend on
floating-point rounding (Python json round-trips float values exactly via
repr, and all other arithmetic here is integral).
-/

namespace InsightPaper

/-- JSON values, as produced by Python json.dump / json.load.  Numbers are
modelled as rationals (covering both Python ints and floats). -/
inductive Json where
  | null : Json
  | num : ℚ → Json
  | str : String → Json
  | arr : List Json → Json
  | obj : List (String × Json) → Json

/-- Looks a key up in a JSON object key-value list, first match wins;
models Python dict.get on a dict built by json.load. -/
def getF : List (String × Json) → String → Option Json
  | [], _ => none
  | kv :: rest, k => if kv.1 = k then some kv.2 else getF rest k

/-- RGBA channels of a QColor.  QColor getters return the channel values the
color was constructed with; the channel values live in the JSON number type. -/
structure Color where
  r : ℚ
  g : ℚ
  b : ℚ
  a : ℚ
deriving DecidableEq, Repr

/-- BrushStroke from edit_tools.py: points is the polyline representation,
path_data the optional polygon-loop representation produced by erasing. -/
structure BrushStroke where
  points : List (ℚ × ℚ)
  color : Color
  width : ℚ
  page_num : ℚ
  id : String
  path_data : Option (List (List (ℚ × ℚ)))
deriving DecidableEq, Repr

/-- Encodes one (x, y) point the way to_dict serializes it (a two-element
JSON array). -/
def encPoint (p : ℚ × ℚ) : Json := .arr [.num p.1, .num p.2]

/-- Encodes one polygon loop of path_data. -/
def encLoop (l : List (ℚ × ℚ)) : Json := .arr (l.map encPoint)

/-- BrushStroke.to_dict: serializes id, points, path_data, color channels,
width and page_num, with an absent path_data written as null. -/
def to_dict (s : BrushStroke) : Json :=
  .obj [("id", .str s.id),
        ("points", .arr (s.points.map encPoint)),
        ("path_data", match s.path_data with
          | none => .null
          | some polys => .arr (polys.map encLoop)),
        ("color", .arr [.num s.color.r, .num s.color.g, .num s.color.b, .num s.color.a]),
        ("width", .num s.width),
        ("page_num", .num s.page_num)]

/-- Decodes one point (a two-element JSON number array).  The embedding types
stroke geometry; JSON shapes outside the typed domain decode to none. -/
def decPoint : Json → Option (ℚ × ℚ)
  | .arr [.num x, .num y] => some (x, y)
  | _ => none

/-- Decodes a list of points. -/
def decPoints : List Json → Option (List (ℚ × ℚ))
  | [] => some []
  | j :: rest =>
    match decPoint j, decPoints rest with
    | some p, some ps => some (p :: ps)
    | _, _ => none

/-- Decodes a list of polygon loops. -/
def decLoops : List Json → Option (List (List (ℚ × ℚ)))
  | [] => some []
  | .arr pts :: rest =>
    match decPoints pts, decLoops rest with
    | some l, some ls => some (l :: ls)
    | _, _ => none
  | _ :: _ => none

/-- Field id: from_dict substitutes a fresh uuid when the field is absent
(the fresh string is passed in, since uuid generation is nondeterministic). -/
def decId : Option Json → String → Option String
  | none, fresh => some fresh
  | some (.str s), _ => some s
  | some _, _ => none

/-- Field points: data.get with default empty list. -/
def decPts : Option Json → Option (List (ℚ × ℚ))
  | none => some []
  | some (.arr l) => decPoints l
  | some _ => none

/-- Field path_data: data.get with default None; JSON null maps to None. -/
def decPd : Option Json → Option (Option (List (List (ℚ × ℚ))))
  | none => some none
  | some .null => some none
  | some (.arr l) =>
    match decLoops l with
    | some ls => some (some ls)
    | none => none
  | some _ => none

/-- Field color: default [255, 255, 0, 100]; present values index the first
four entries (an out-of-shape value raises in Python, modelled as none). -/
def decColor : Option Json → Option Color
  | none => some ⟨255, 255, 0, 100⟩
  | some (.arr (.num r :: .num g :: .num b :: .num a :: _)) => some ⟨r, g, b, a⟩
  | some _ => none

/-- Field width: default 20. -/
def decWidth : Option Json → Option ℚ
  | none => some 20
  | some (.num q) => some q
  | some _ => none

/-- Field page_num: default 0. -/
def decPage : Option Json → Option ℚ
  | none => some 0
  | some (.num q) => some q
  | some _ => none

/-- BrushStroke.from_dict: reads the six fields with their source defaults.
A none result models a raised exception (or an input outside the typed
geometry domain); from_dict callers catch exceptions. -/
def from_dict (fresh : String) (j : Json) : Option BrushStroke :=
  match j with
  | .obj kvs =>
    match decId (getF kvs "id") fresh, decPts (getF kvs "points"),
          decPd (getF kvs "path_data"), decColor (getF kvs "color"),
          decWidth (getF kvs "width"), decPage (getF kvs "page_num") with
    | some sid, some pts, some pd, some col, some w, some pg =>
      some ⟨pts, col, w, pg, sid, pd⟩
    | _, _, _, _, _, _ => none
  | _ => none

theorem decPoint_encPoint (p : ℚ × ℚ) : decPoint (encPoint p) = some p := rfl

theorem decPoints_map_enc (ps : List (ℚ × ℚ)) :
    decPoints (ps.map encPoint) = some ps := by
  induction ps with
  | nil => rfl
  | cons p rest ih => simp [decPoints, decPoint_encPoint, ih]

theorem decLoops_map_enc (ls : List (List (ℚ × ℚ))) :
    decLoops (ls.map encLoop) = some ls := by
  induction ls with
  | nil => rfl
  | cons l rest ih => simp [decLoops, encLoop, decPoints_map_enc, ih]

/-- Decoding inverts encoding: from_dict applied to to_dict output restores
the stroke exactly (every field, fresh id unused since id is present). -/
theorem from_dict_to_dict (fresh : String) (s : BrushStroke) :
    from_dict fresh (to_dict s) = some s := by
  obtain ⟨pts, col, w, pg, sid, pd⟩ := s
  cases pd with
  | none =>
    simp [from_dict, to_dict, getF, decId, decPts, decPd, decColor, decWidth,
          decPage, decPoints_map_enc]
  | some loops =>
    simp [from_dict, to_dict, getF, decId, decPts, decPd, decColor, decWidth,
          decPage, decPoints_map_enc, decLoops_map_enc]

/-- The JSON document save_to_file writes: an object with a strokes field
holding the serialized stroke list. -/
def save_json (st : List BrushStroke) : Json :=
  .obj [("strokes", .arr (st.map to_dict))]

/-- The three relevant states of the annotation sidecar file: missing on
disk, present but failing json.load, or a parsed JSON value. -/
inductive FileContent where
  | absent : FileContent
  | unparsable : FileContent
  | content : Json → FileContent

/-- Decodes the strokes array, one fresh uuid candidate per element; any
element raising makes the whole comprehension raise (none). -/
def decodeStrokes (fresh : Nat → String) : Nat → List Json → Option (List BrushStroke)
  | _, [] => some []
  | n, j :: rest =>
    match from_dict (fresh n) j, decodeStrokes fresh (n + 1) rest with
    | some s, some ss => some (s :: ss)
    | _, _ => none

/-- BrushManager.load_from_file acting on the current stroke list: absent
file or any caught exception (unparsable JSON, a non-object document, a
non-array strokes field, a stroke failing from_dict) returns False and
leaves the stroke list untouched; a successful parse replaces it. -/
def load_from_file (fresh : Nat → String) : FileContent → List BrushStroke → Bool × List BrushStroke
  | .absent, st => (false, st)
  | .unparsable, st => (false, st)
  | .content (.obj kvs), st =>
    match getF kvs "strokes" with
    | none => (true, [])
    | some (.arr l) =>
      match decodeStrokes fresh 0 l with
      | some ss => (true, ss)
      | none => (false, st)
    | some _ => (false, st)
  | .content _, st => (false, st)

/-- PdfBrushHandler.load_strokes: clears the stroke set first, then loads
from the sidecar only when the file exists on disk. -/
def load_strokes (fresh : Nat → String) : FileContent → List BrushStroke
  | .absent => []
  | .unparsable => (load_from_file fresh .unparsable []).2
  | .content j => (load_from_file fresh (.content j) []).2

/-- BrushManager state: the fields of edit_tools.BrushManager that the
verified operations read or write (signals and the never-pushed undo_stack
are omitted; the stack stays empty for the whole session). -/
structure BrushManager where
  enabled : Bool
  mode : String
  brush_color : Color
  brush_width : ℚ
  strokes : List BrushStroke
  current_stroke : Option BrushStroke
  is_drawing : Bool
deriving DecidableEq, Repr

/-- BrushManager.__init__ defaults. -/
def initManager : BrushManager :=
  { enabled := false
    mode := "draw"
    brush_color := ⟨255, 255, 0, 100⟩
    brush_width := 25
    strokes := []
    current_stroke := none
    is_drawing := false }

/-- BrushManager.start_stroke: no-op unless enabled and in draw mode; else
begins a one-point in-progress stroke (uuid passed in as freshId). -/
def start_stroke (m : BrushManager) (pos : ℚ × ℚ) (page_num : ℚ)
    (freshId : String) : BrushManager :=
  if m.enabled ∧ m.mode = "draw" then
    { m with
      is_drawing := true
      current_stroke := some
        { points := [pos]
          color := m.brush_color
          width := m.brush_width
          page_num := page_num
          id := freshId
          path_data := none } }
  else m

/-- BrushManager.add_point: appends to the in-progress stroke when drawing. -/
def add_point (m : BrushManager) (pos : ℚ × ℚ) : BrushManager :=
  if m.is_drawing then
    match m.current_stroke with
    | some s => { m with current_stroke := some { s with points := s.points ++ [pos] } }
    | none => m
  else m

/-- BrushManager.add_stroke: appends to the stroke list (the is_new_action
branch in the source is a pass statement). -/
def add_stroke (m : BrushManager) (s : BrushStroke) : BrushManager :=
  { m with strokes := m.strokes ++ [s] }

/-- BrushManager.end_stroke: commits the in-progress stroke when drawing and
it has more than one point, returning it; otherwise discards it.  Both
branches reset is_drawing and current_stroke. -/
def end_stroke (m : BrushManager) : BrushManager × Option BrushStroke :=
  match m.current_stroke with
  | some s =>
    if m.is_drawing ∧ 1 < s.points.length then
      ({ add_stroke m s with is_drawing := false, current_stroke := none }, some s)
    else
      ({ m with is_drawing := false, current_stroke := none }, none)
  | none => ({ m with is_drawing := false, current_stroke := none }, none)

/-- Helper for modify_stroke: updates the first stroke whose id matches,
setting path_data to the new polygons and clearing points; none when no
stroke matches. -/
def modifyFirst (sid : String) (polys : List (List (ℚ × ℚ))) :
    List BrushStroke → Option (List BrushStroke)
  | [] => none
  | s :: rest =>
    if s.id = sid then
      some ({ s with path_data := some polys, points := [] } :: rest)
    else
      (modifyFirst sid polys rest).map (s :: ·)

/-- BrushManager.modify_stroke: scans for the stroke by id; on a match it
overwrites path_data with the new polygons, empties points and returns True,
else returns False.  It never removes the stroke, even when the new polygon
list is empty. -/
def modify_stroke (m : BrushManager) (sid : String)
    (polys : List (List (ℚ × ℚ))) : BrushManager × Bool :=
  match modifyFirst sid polys m.strokes with
  | some l => ({ m with strokes := l }, true)
  | none => (m, false)

/-- Helper for remove_stroke: drops the first stroke whose id matches. -/
def removeFirst (sid : String) : List BrushStroke → Option (List BrushStroke)
  | [] => none
  | s :: rest =>
    if s.id = sid then some rest
    else (removeFirst sid rest).map (s :: ·)

/-- BrushManager.remove_stroke: removes the first stroke with the given id
and returns True, else False. -/
def remove_stroke (m : BrushManager) (sid : String) : BrushManager × Bool :=
  match removeFirst sid m.strokes with
  | some l => ({ m with strokes := l }, true)
  | none => (m, false)

/-- BrushManager.undo: the source body is a bare return False; the whole
revert implementation is commented out and the undo stack is never pushed. -/
def undo (m : BrushManager) : BrushManager × Bool := (m, false)

/-- BrushManager.clear_strokes. -/
def clear_strokes (m : BrushManager) : BrushManager := { m with strokes := [] }

/-- PdfBrushHandler.handle_mouse_release in erase mode (the commit of an
erase gesture): for every graphics item touched during the gesture it
converts the item's Qt path to polygon loops and calls modify_stroke with
them.  The embedding takes the per-item (stroke id, polygon loops) pairs as
input; a fully erased item yields the empty loop list, since toFillPolygons
of an empty path is empty and empty polygons are filtered out. -/
def commitErase (m : BrushManager)
    (mods : List (String × List (List (ℚ × ℚ)))) : BrushManager :=
  mods.foldl (fun acc md => (modify_stroke acc md.1 md.2).1) m

/-- PDFGraphicsView.rotate_current_page state update (page_count is the
length of page_items, p the current page, degrees the clockwise rotation):
guarded on the page index being in range; the new rotation is the old one
(omitted entries read as 0) plus degrees, modulo 360; a result of 0 removes
the map entry, anything else stores it.  The bitmap transform and relayout
act only on pixel data and are not part of the persisted rotation state. -/
def rotate_current_page (page_count : Nat) (rot : Nat → Option Int) (p : Nat)
    (degrees : Int) : Nat → Option Int :=
  fun q =>
    if p < page_count ∧ q = p then
      if ((rot p).getD 0 + degrees) % 360 = 0 then none
      else some (((rot p).getD 0 + degrees) % 360)
    else rot q

/-- Four successive 90-degree rotations of page p. -/
def rotate4 (page_count : Nat) (rot : Nat → Option Int) (p : Nat) : Nat → Option Int :=
  rotate_current_page page_count
    (rotate_current_page page_count
      (rotate_current_page page_count
        (rotate_current_page page_count rot p 90) p 90) p 90) p 90

/-- Render scheduler state of PDFGraphicsView: the next page index the
ticking scheduler will consider, the page count, the keys of the
_active_workers dict in insertion order, and whether the render timer runs. -/
structure RenderState where
  render_idx : Nat
  page_count : Nat
  active : List Nat
  timer_on : Bool
deriving DecidableEq, Repr

/-- State after _render_pages: workers cancelled and cleared, index reset,
timer started. -/
def initRender (n : Nat) : RenderState :=
  { render_idx := 0, page_count := n, active := [], timer_on := true }

/-- Events hitting the scheduler state: a timer tick running
_schedule_next_render, or a worker finishing and running _cleanup_worker. -/
inductive RenderEvent where
  | tick : RenderEvent
  | finish : Nat → RenderEvent

/-- One scheduler transition.  A tick stops the timer once every page index
was considered, refuses to dispatch while three workers are active, skips a
page already in flight, and otherwise dispatches exactly one worker for the
next page.  A worker finishing pops its dict entry. -/
def render_step (st : RenderState) (e : RenderEvent) : RenderState :=
  match e with
  | .tick =>
    if st.timer_on = false then st
    else if st.page_count ≤ st.render_idx then { st with timer_on := false }
    else if 3 ≤ st.active.length then st
    else if st.render_idx ∈ st.active then { st with render_idx := st.render_idx + 1 }
    else { st with active := st.active ++ [st.render_idx], render_idx := st.render_idx + 1 }
  | .finish p =>
    if p ∈ st.active then { st with active := st.active.erase p } else st

/-- The scheduler state reached after a sequence of events from a fresh
document load of n pages. -/
def render_run (n : Nat) (es : List RenderEvent) : RenderState :=
  es.foldl render_step (initRender n)

/-- The worker-pool invariant: no page has two outstanding workers and at
most three workers are outstanding. -/
def WorkerInv (st : RenderState) : Prop :=
  st.active.Nodup ∧ st.active.length ≤ 3

/-- Exactly-one-representation predicate on a stroke: its polyline is empty
or it never acquired polygon data. -/
def reprOk (s : BrushStroke) : Prop :=
  s.points = [] ∨ s.path_data = none

/-- Shared example color (the default highlighter yellow). -/
def exColor : Color := ⟨255, 255, 0, 100⟩

/-- Shared example stroke, taken from the scenario in the spec. -/
def exStroke : BrushStroke :=
  { points := [(10, 10), (50, 10), (50, 50)]
    color := exColor
    width := 20
    page_num := 0
    id := "s1"
    path_data := none }

/-- Manager holding the one committed example stroke. -/
def exManager : BrushManager := { initManager with strokes := [exStroke] }

theorem modifyFirst_spec {sid : String} {polys : List (List (ℚ × ℚ))} :
    ∀ {l l₂ : List BrushStroke}, modifyFirst sid polys l = some l₂ →
      l₂.length = l.length ∧
      (∀ s ∈ l₂, s ∈ l ∨ (s.id = sid ∧ s.points = [] ∧ s.path_data = some polys)) ∧
      (∃ s ∈ l₂, s.id = sid ∧ s.points = [] ∧ s.path_data = some polys) := by
  intro l
  induction l with
  | nil => intro l₂ h; simp [modifyFirst] at h
  | cons s rest ih =>
    intro l₂ h
    by_cases hid : s.id = sid
    · rw [modifyFirst, if_pos hid] at h
      obtain rfl := Option.some_injective _ h.symm
      refine ⟨by simp, ?_, ?_⟩
      · intro t ht
        rcases List.mem_cons.mp ht with rfl | ht
        · exact Or.inr ⟨hid, rfl, rfl⟩
        · exact Or.inl (List.mem_cons_of_mem _ ht)
      · exact ⟨_, List.mem_cons_self _ _, hid, rfl, rfl⟩
    · rw [modifyFirst, if_neg hid] at h
      rcases Option.map_eq_some'.mp h with ⟨l₂', hrest, rfl⟩
      obtain ⟨hlen, hall, t, htm, htp⟩ := ih hrest
      refine ⟨by simp [hlen], ?_, ⟨t, List.mem_cons_of_mem _ htm, htp⟩⟩
      intro u hu
      rcases List.mem_cons.mp hu with rfl | hu
      · exact Or.inl (List.mem_cons_self _ _)
      · rcases hall u hu with h1 | h2
        · exact Or.inl (List.mem_cons_of_mem _ h1)
        · exact Or.inr h2

theorem modifyFirst_isSome (sid : String) (polys : List (List (ℚ × ℚ))) :
    ∀ {l : List BrushStroke}, (∃ s ∈ l, s.id = sid) →
      (modifyFirst sid polys l).isSome := by
  intro l
  induction l with
  | nil => intro h; simp at h
  | cons s rest ih =>
    intro h
    by_cases hid : s.id = sid
    · rw [modifyFirst, if_pos hid]; rfl
    · rw [modifyFirst, if_neg hid]
      rcases h with ⟨t, htm, htid⟩
      rcases List.mem_cons.mp htm with rfl | htm
      · exact absurd htid hid
      · have := ih ⟨t, htm, htid⟩
        rcases Option.isSome_iff_exists.mp this with ⟨l₂, hl₂⟩
        rw [hl₂]; rfl

theorem commitErase_single (m : BrushManager) (sid : String)
    (polys : List (List (ℚ × ℚ))) :
    commitErase m [(sid, polys)] = (modify_stroke m sid polys).1 := rfl

/-- Claim C1 counterexample: a single stroke manager, with the erase gesture
reducing that stroke's geometry to nothing (empty polygon list).  After the
commit the stroke is still present in the stroke set, merely carrying empty
polygon data and a cleared polyline — it has not been removed. -/
theorem C1_counterexample_full_erase_keeps_stroke :
    (commitErase exManager [("s1", [])]).strokes =
      [{ exStroke with points := [], path_data := some [] }] := by decide

/-- Claim C1 amended: when the eraser region covers a stroke entirely (path
subtraction yields empty geometry, hence an empty polygon list at commit),
commitErase does not remove the stroke; the stroke set keeps its size and
the stroke survives with a cleared polyline and empty polygon data. -/
theorem C1_full_erase_leaves_empty_stroke (m : BrushManager) (sid : String)
    (h : ∃ s ∈ m.strokes, s.id = sid) :
    (commitErase m [(sid, [])]).strokes.length = m.strokes.length ∧
    ∃ s ∈ (commitErase m [(sid, [])]).strokes,
      s.id = sid ∧ s.points = [] ∧ s.path_data = some [] := by
  rw [commitErase_single]
  have hs := modifyFirst_isSome sid [] h
  rcases Option.isSome_iff_exists.mp hs with ⟨l₂, hl₂⟩
  obtain ⟨hlen, _, hex⟩ := modifyFirst_spec hl₂
  simp only [modify_stroke, hl₂]
  exact ⟨hlen, hex⟩

theorem C1_witness :
    (∃ s ∈ exManager.strokes, s.id = "s1") ∧
    ((commitErase exManager [("s1", [])]).strokes.length = exManager.strokes.length ∧
     ∃ s ∈ (commitErase exManager [("s1", [])]).strokes,
       s.id = "s1" ∧ s.points = [] ∧ s.path_data = some []) :=
  ⟨by decide, C1_full_erase_leaves_empty_stroke exManager "s1" (by decide)⟩

/-- Claim C7: modify_stroke (the erase-commit update) clears the polyline of
the stroke it updates while installing the polygon data, so the
one-authoritative-representation invariant is preserved across erase
updates, and the updated stroke itself carries polygons with empty points. -/
theorem C7_single_representation_after_modify (m : BrushManager) (sid : String)
    (polys : List (List (ℚ × ℚ))) (h : ∀ s ∈ m.strokes, reprOk s) :
    (∀ s ∈ (modify_stroke m sid polys).1.strokes, reprOk s) ∧
    ((modify_stroke m sid polys).2 = true →
      ∃ s ∈ (modify_stroke m sid polys).1.strokes,
        s.id = sid ∧ s.points = [] ∧ s.path_data = some polys) := by
  rcases hm : modifyFirst sid polys m.strokes with _ | l₂
  · simp only [modify_stroke, hm]
    exact ⟨h, by simp⟩
  · obtain ⟨_, hall, hex⟩ := modifyFirst_spec hm
    simp only [modify_stroke, hm]
    refine ⟨?_, fun _ => hex⟩
    intro s hs
    rcases hall s hs with h1 | h2
    · exact h s h1
    · exact Or.inl h2.2.1

theorem C7_witness :
    (∀ s ∈ exManager.strokes, reprOk s) ∧
    ((∀ s ∈ (modify_stroke exManager "s1" [[(1, 1), (2, 1), (2, 2)]]).1.strokes, reprOk s) ∧
     ((modify_stroke exManager "s1" [[(1, 1), (2, 1), (2, 2)]]).2 = true →
       ∃ s ∈ (modify_stroke exManager "s1" [[(1, 1), (2, 1), (2, 2)]]).1.strokes,
         s.id = "s1" ∧ s.points = [] ∧ s.path_data = some [[(1, 1), (2, 1), (2, 2)]])) := by
  have h0 : ∀ s ∈ exManager.strokes, reprOk s := by
    intro s hs
    rcases List.mem_singleton.mp hs with rfl
    exact Or.inr rfl
  exact ⟨h0, C7_single_representation_after_modify exManager "s1" [[(1, 1), (2, 1), (2, 2)]] h0⟩

theorem decodeStrokes_map_to_dict (fresh : Nat → String) :
    ∀ (st : List BrushStroke) (n : Nat),
      decodeStrokes fresh n (st.map to_dict) = some st := by
  intro st
  induction st with
  | nil => intro n; rfl
  | cons s rest ih =>
    intro n
    simp [decodeStrokes, from_dict_to_dict, ih]

/-- Loading the exact JSON document that save_to_file wrote replaces the
in-memory stroke list with the serialized one and reports success. -/
theorem load_save (fresh : Nat → String) (st st0 : List BrushStroke) :
    load_from_file fresh (.content (save_json st)) st0 = (true, st) := by
  simp [load_from_file, save_json, getF, decodeStrokes_map_to_dict]

/-- Claim C2: a committed stroke with at least two points survives a save
plus load round trip: the loaded stroke set contains a stroke agreeing with
it on points, color channels, width, page number and id. -/
theorem C2_save_load_round_trip (fresh : Nat → String) (st st0 : List BrushStroke)
    (s : BrushStroke) (hs : s ∈ st) (_hp : 2 ≤ s.points.length) :
    ∃ t ∈ (load_from_file fresh (.content (save_json st)) st0).2,
      t.points = s.points ∧ t.color = s.color ∧ t.width = s.width ∧
      t.page_num = s.page_num ∧ t.id = s.id := by
  rw [load_save]
  exact ⟨s, hs, rfl, rfl, rfl, rfl, rfl⟩

theorem C2_witness :
    (exStroke ∈ [exStroke]) ∧ (2 ≤ exStroke.points.length) ∧
    ∃ t ∈ (load_from_file (fun _ => "u") (.content (save_json [exStroke])) []).2,
      t.points = exStroke.points ∧ t.color = exStroke.color ∧
      t.width = exStroke.width ∧ t.page_num = exStroke.page_num ∧ t.id = exStroke.id :=
  ⟨by decide, by decide,
   C2_save_load_round_trip (fun _ => "u") [exStroke] [] exStroke (by decide) (by decide)⟩

/-- Claim C5: an absent or unparsable sidecar never raises to the caller —
load_from_file returns False with the in-memory strokes untouched (every
exception is caught) — and the document-open load path (load_strokes, which
clears the set before loading) ends with an empty stroke set. -/
theorem C5_load_fallback (fresh : Nat → String) (file : FileContent)
    (st : List BrushStroke) (h : file = .absent ∨ file = .unparsable) :
    load_from_file fresh file st = (false, st) ∧ load_strokes fresh file = [] := by
  rcases h with rfl | rfl
  · exact ⟨rfl, rfl⟩
  · exact ⟨rfl, rfl⟩

theorem C5_witness :
    ((FileContent.absent = FileContent.absent ∨ FileContent.absent = FileContent.unparsable) ∧
     (load_from_file (fun _ => "u") .absent [exStroke] = (false, [exStroke]) ∧
      load_strokes (fun _ => "u") .absent = [])) :=
  ⟨Or.inl rfl, C5_load_fallback (fun _ => "u") .absent [exStroke] (Or.inl rfl)⟩

/-- A degenerate persisted stroke: a polyline of a single point. -/
def degStroke : BrushStroke :=
  { points := [(5, 5)], color := exColor, width := 20, page_num := 0,
    id := "m1", path_data := none }

/-- A malformed persisted stroke: polygon data holding an empty loop. -/
def loopStroke : BrushStroke :=
  { points := [], color := exColor, width := 20, page_num := 0,
    id := "m2", path_data := some [[]] }

/-- Claim C6 counterexample: a sidecar file holding a one-point polyline and
an empty polygon loop loads without dropping anything — both malformed
strokes appear verbatim in the loaded stroke set, so a loaded stroke may
violate the stated geometry invariants. -/
theorem C6_counterexample_malformed_kept :
    degStroke.points.length = 1 ∧ loopStroke.path_data = some [[]] ∧
    (load_from_file (fun _ => "u")
      (.content (save_json [degStroke, loopStroke])) []).2 = [degStroke, loopStroke] := by
  refine ⟨rfl, rfl, ?_⟩
  rw [load_save]

/-- Claim C6 amended: load performs no geometry validation; every stroke of
the persisted document — including degenerate polylines with fewer than two
points — is loaded verbatim into the stroke set rather than dropped.  (A
decode exception instead aborts the whole load, returning False with the
prior in-memory set; render-time code merely skips empty geometry.) -/
theorem C6_malformed_loaded_verbatim (fresh : Nat → String)
    (st st0 : List BrushStroke) (s : BrushStroke) (hs : s ∈ st)
    (_hdeg : s.points.length < 2) :
    s ∈ (load_from_file fresh (.content (save_json st)) st0).2 := by
  rw [load_save]
  exact hs

theorem C6_witness :
    (degStroke ∈ [degStroke]) ∧ (degStroke.points.length < 2) ∧
    degStroke ∈ (load_from_file (fun _ => "u")
      (.content (save_json [degStroke])) []).2 :=
  ⟨by decide, by decide,
   C6_malformed_loaded_verbatim (fun _ => "u") [degStroke] [] degStroke
     (by decide) (by decide)⟩

/-- Manager in annotation mode, before any gesture. -/
def exEnabled : BrushManager := { initManager with enabled := true }

/-- Manager state immediately after a committed three-point draw gesture
(press, two moves, release), built through the actual operations. -/
def exCommitted : BrushManager :=
  (end_stroke (add_point (add_point
    (start_stroke exEnabled (10, 10) 0 "s1") (50, 10)) (50, 50))).1

/-- Claim C3 evaluated at the failing input: immediately after a draw commit
(one stroke in the set) undo returns False and leaves the manager — and in
particular the stroke set — unchanged, instead of reverting the add. -/
theorem C3_undo_inert_after_commit :
    exCommitted.strokes.length = 1 ∧ undo exCommitted = (exCommitted, false) :=
  ⟨by decide, rfl⟩

/-- In-progress two-point stroke for the commit witness. -/
def exCur : BrushStroke :=
  { points := [(10, 10), (50, 10)], color := exColor, width := 25,
    page_num := 0, id := "c1", path_data := none }

/-- Manager mid-gesture, drawing exCur. -/
def exDrawing : BrushManager :=
  { initManager with enabled := true, is_drawing := true, current_stroke := some exCur }

/-- Claim C4: with a stroke in progress, end_stroke returns the stroke and
appends it to the stroke set exactly when it has at least two points; with
fewer points the stroke set is unchanged and nothing is returned. -/
theorem C4_end_stroke_commits_iff_two_points (m : BrushManager) (s : BrushStroke)
    (hd : m.is_drawing = true) (hc : m.current_stroke = some s) :
    ((end_stroke m).2 = some s ↔ 2 ≤ s.points.length) ∧
    (2 ≤ s.points.length → (end_stroke m).1.strokes = m.strokes ++ [s]) ∧
    (s.points.length < 2 →
      (end_stroke m).1.strokes = m.strokes ∧ (end_stroke m).2 = none) := by
  simp only [end_stroke, hc]
  by_cases hlen : 1 < s.points.length
  · rw [if_pos ⟨by rw [hd], hlen⟩]
    refine ⟨by simp; omega, fun _ => by simp [add_stroke], fun hlt => by omega⟩
  · rw [if_neg (fun hcon => hlen hcon.2)]
    refine ⟨by simp; omega, fun h2 => by omega, fun _ => ⟨rfl, rfl⟩⟩

theorem C4_witness :
    (exDrawing.is_drawing = true) ∧ (exDrawing.current_stroke = some exCur) ∧
    (((end_stroke exDrawing).2 = some exCur ↔ 2 ≤ exCur.points.length) ∧
     (2 ≤ exCur.points.length →
       (end_stroke exDrawing).1.strokes = exDrawing.strokes ++ [exCur]) ∧
     (exCur.points.length < 2 →
       (end_stroke exDrawing).1.strokes = exDrawing.strokes ∧
       (end_stroke exDrawing).2 = none)) :=
  ⟨rfl, rfl, C4_end_stroke_commits_iff_two_points exDrawing exCur rfl rfl⟩

/-- Claim C10: end_stroke always resets the in-progress drawing state —
whether or not a stroke was committed — so is_drawing is false,
current_stroke is cleared, and any subsequent add_point is a no-op. -/
theorem C10_end_stroke_resets_state (m : BrushManager) :
    (end_stroke m).1.is_drawing = false ∧ (end_stroke m).1.current_stroke = none ∧
    ∀ pos : ℚ × ℚ, add_point (end_stroke m).1 pos = (end_stroke m).1 := by
  have h : (end_stroke m).1.is_drawing = false ∧ (end_stroke m).1.current_stroke = none := by
    rcases hc : m.current_stroke with _ | s
    · simp [end_stroke, hc]
    · simp only [end_stroke, hc]
      split
      · exact ⟨rfl, rfl⟩
      · exact ⟨rfl, rfl⟩
  refine ⟨h.1, h.2, fun pos => ?_⟩
  unfold add_point
  rw [h.1]
  simp

theorem rotate_val {n p : Nat} (hp : p < n) (rot : Nat → Option Int) (d : Int) :
    ((rotate_current_page n rot p d) p).getD 0 = ((rot p).getD 0 + d) % 360 := by
  simp only [rotate_current_page, hp, and_self, if_pos, true_and]
  split
  · next hzero => exact hzero.symm
  · rfl

theorem rotate_none_iff {n p : Nat} (hp : p < n) (rot : Nat → Option Int) (d : Int) :
    (rotate_current_page n rot p d) p = none ↔ ((rot p).getD 0 + d) % 360 = 0 := by
  rcases eq_or_ne (((rot p).getD 0 + d) % 360) 0 with h | h
  · simp [rotate_current_page, hp, h]
  · simp [rotate_current_page, hp, h]

/-- Claim C8: four successive 90-degree rotations of an in-range page leave
its persisted rotation value unchanged modulo 360 (net rotation 0), the
resulting map entry is omitted exactly when that value is 0 modulo 360, and
after any single rotation the entry is omitted exactly when the newly
computed rotation is 0 — the sidecar stores 0 as an absent entry. -/
theorem C8_four_rotations_restore (n : Nat) (rot : Nat → Option Int) (p : Nat)
    (hp : p < n) :
    ((rotate4 n rot p) p).getD 0 % 360 = ((rot p).getD 0) % 360 ∧
    ((rotate4 n rot p) p = none ↔ ((rot p).getD 0) % 360 = 0) ∧
    ((rotate_current_page n rot p 90) p = none ↔ ((rot p).getD 0 + 90) % 360 = 0) := by
  unfold rotate4
  have k1 := rotate_val hp rot 90
  have k2 := rotate_val hp (rotate_current_page n rot p 90) 90
  have k3 := rotate_val hp
    (rotate_current_page n (rotate_current_page n rot p 90) p 90) 90
  have k4 := rotate_val hp
    (rotate_current_page n
      (rotate_current_page n (rotate_current_page n rot p 90) p 90) p 90) 90
  refine ⟨?_, ?_, rotate_none_iff hp rot 90⟩
  · rw [k4, k3, k2, k1]
    omega
  · rw [rotate_none_iff hp _ 90, k3, k2, k1]
    omega

theorem C8_witness :
    (0 < 3) ∧
    (((rotate4 3 (fun _ => none) 0) 0).getD 0 % 360 =
       (((fun _ => (none : Option Int)) 0).getD 0) % 360 ∧
     ((rotate4 3 (fun _ => none) 0) 0 = none ↔
       (((fun _ => (none : Option Int)) 0).getD 0) % 360 = 0) ∧
     ((rotate_current_page 3 (fun _ => none) 0 90) 0 = none ↔
       (((fun _ => (none : Option Int)) 0).getD 0 + 90) % 360 = 0)) :=
  ⟨by decide, C8_four_rotations_restore 3 (fun _ => none) 0 (by decide)⟩

theorem render_step_inv (st : RenderState) (e : RenderEvent) (h : WorkerInv st) :
    WorkerInv (render_step st e) := by
  obtain ⟨hnd, hlen⟩ := h
  cases e with
  | tick =>
    simp only [render_step]
    by_cases ht : st.timer_on = false
    · rw [if_pos ht]; exact ⟨hnd, hlen⟩
    rw [if_neg ht]
    by_cases hdone : st.page_count ≤ st.render_idx
    · rw [if_pos hdone]; exact ⟨hnd, hlen⟩
    rw [if_neg hdone]
    by_cases hcap : 3 ≤ st.active.length
    · rw [if_pos hcap]; exact ⟨hnd, hlen⟩
    rw [if_neg hcap]
    by_cases hmem : st.render_idx ∈ st.active
    · rw [if_pos hmem]; exact ⟨hnd, hlen⟩
    rw [if_neg hmem]
    refine ⟨?_, ?_⟩
    · simp [List.nodup_append, hnd, hmem]
    · simp only [List.length_append, List.length_singleton]
      omega
  | finish p =>
    simp only [render_step]
    split
    · exact ⟨hnd.erase p, le_trans (List.erase_sublist p st.active).length_le hlen⟩
    · exact ⟨hnd, hlen⟩

/-- Claim C9: along every event trace (scheduler ticks and worker
completions) from a fresh document load, the outstanding-worker set never
holds two workers for the same page and never holds more than three workers. -/
theorem C9_worker_cap (n : Nat) (es : List RenderEvent) :
    (render_run n es).active.Nodup ∧ (render_run n es).active.length ≤ 3 := by
  suffices h : ∀ st : RenderState, WorkerInv st → WorkerInv (es.foldl render_step st) from
    h (initRender n) ⟨List.nodup_nil, by simp [initRender]⟩
  induction es with
  | nil => intro st h; exact h
  | cons e rest ih => intro st h; exact ih _ (render_step_inv st e h)

end InsightPaper
